import Mathlib

/-!
Shallow embedding of the AssemblyScript runtime memory-management layer
(`std/assembly/runtime.ts`, here `src/unnamed/part_000`) and of the garbage
collector interface (`src/std/assembly/gc.ts`).

Modelling conventions:
* Linear memory is a byte map `Nat → Nat`; 32-bit loads/stores are
  little-endian, and stores mask each byte with `% 256` (u32 semantics).
* The backing allocator (`memory.allocate` / `free` / `copy` / `fill`) is an
  external collaborator; it is modelled as a bump allocator over fresh
  addresses, and every call to it — as well as every collector-hook call
  (`__ref_register`, `__ref_link`) — is recorded in an event trace, so that
  temporal/frame claims can be stated about the sequence of observed calls.
* The build-time flag `isDefined(__ref_collect)` (collector compiled in or
  not) is the `gc : Bool` parameter; it selects the full 16-byte header or
  the truncated 8-byte header and guards the reserved-field writes and the
  hook calls, exactly as the source does.
* Checked builds (`ASC_NO_ASSERT` false) are modelled: a failing `assert`
  makes the operation return `none` (fatal trap).
* `usize` is 32 bits (WASM32): shift counts are masked `% 32`, shifted and
  stored values `% 2^32`, mirroring the source's u32 arithmetic.
-/

set_option linter.unusedVariables false

namespace AscRuntime

/-- Little-endian 32-bit load from byte-addressed memory. -/
def load32 (m : Nat → Nat) (a : Nat) : Nat :=
  m a + 256 * m (a + 1) + 65536 * m (a + 2) + 16777216 * m (a + 3)

/-- Little-endian 32-bit store into byte-addressed memory; each byte is
masked to `% 256`, so the stored word is the value modulo `2^32`. -/
def store32 (m : Nat → Nat) (a v : Nat) : Nat → Nat :=
  fun x =>
    if x = a then v % 256
    else if x = a + 1 then v / 256 % 256
    else if x = a + 2 then v / 65536 % 256
    else if x = a + 3 then v / 16777216 % 256
    else m x

/-- Denotation of `memory.copy(dst, src, n)` (memmove semantics): each byte of
the destination range receives the corresponding byte of the original source
range; all other bytes are unchanged. -/
def memmove (m : Nat → Nat) (dst src n : Nat) : Nat → Nat :=
  fun x => if dst ≤ x ∧ x < dst + n then m (src + (x - dst)) else m x

/-- Denotation of `memory.fill(dst, v, n)`: every byte of the destination
range becomes `v % 256`; all other bytes are unchanged. -/
def memset (m : Nat → Nat) (dst v n : Nat) : Nat → Nat :=
  fun x => if dst ≤ x ∧ x < dst + n then v % 256 else m x

/-- Common runtime header magic (`HEADER_MAGIC = 0xA55E4B17`). -/
def HEADER_MAGIC : Nat := 0xA55E4B17

/-- Alignment mask (`AL_MASK` from `util/allocator`, 8-byte alignment). -/
def AL_MASK : Nat := 7

/-- `HEADER_SIZE`: the full 16-byte header (classId, payloadSize and the two
reserved usize fields, WASM32) when a collector is compiled in, else the
header truncated at `reserved1`, i.e. 8 bytes; both already alignment-rounded
(`(offset + AL_MASK) & ~AL_MASK`). -/
def HEADER_SIZE (gc : Bool) : Nat := if gc then 16 else 8

/-- `MAX_SIZE_32 = 1 << 30`, the largest size class. -/
def MAX_SIZE_32 : Nat := 0x40000000

/-- `runtime.MAX_BYTELENGTH = MAX_SIZE_32 - HEADER_SIZE`. -/
def MAX_BYTELENGTH (gc : Bool) : Nat := MAX_SIZE_32 - HEADER_SIZE gc

/-- `HEAP_BASE`: the address where static data ends and the movable heap
begins. A concrete build-time constant of the model. -/
def HEAP_BASE : Nat := 64

/-- Binary length of `n` (number of significant bits), with explicit fuel so
that it reduces structurally; `fuel = 32` suffices for any 32-bit value. -/
def bits (fuel n : Nat) : Nat :=
  match fuel with
  | 0 => 0
  | fuel + 1 => if n = 0 then 0 else bits fuel (n / 2) + 1

/-- WASM `i32.clz` on a 32-bit value: 32 minus the binary length. -/
def clz32 (n : Nat) : Nat := 32 - bits 32 n

/-- `runtime.adjust(payloadSize)`: rounds an allocation up to the actual
block size `1 << (32 - clz<u32>(payloadSize + HEADER_SIZE - 1))`, with u32
wrap-around on the intermediate sum and the WASM mask on the shift count. -/
def adjust (gc : Bool) (payloadSize : Nat) : Nat :=
  (1 <<< ((32 - clz32 ((payloadSize + HEADER_SIZE gc - 1) % 4294967296)) % 32)) % 4294967296

/-- One observable call to the backing allocator or to a collector hook. -/
inductive Event where
  | alloc (size addr : Nat)
  | free (addr : Nat)
  | copy (dst src len : Nat)
  | fill (dst val len : Nat)
  | regHook (ref : Nat)
  | linkHook (ref parentRef : Nat)
  deriving DecidableEq

/-- Program state: linear memory, the bump allocator's next fresh address,
and the trace of allocator/collector calls made so far. -/
structure State where
  mem : Nat → Nat
  next : Nat
  events : List Event

/-- Fresh program state: zeroed linear memory (as in WASM), bump pointer
just past `HEAP_BASE`, empty trace. -/
def initState : State :=
  { mem := fun _ => 0, next := HEAP_BASE + 8, events := [] }

/-- `memory.allocate(size)`: hands out a fresh block at the bump pointer. -/
def memAllocate (s : State) (size : Nat) : State × Nat :=
  ({ mem := s.mem, next := s.next + size,
     events := s.events ++ [Event.alloc size s.next] }, s.next)

/-- `memory.free(addr)`. -/
def memFree (s : State) (addr : Nat) : State :=
  { s with events := s.events ++ [Event.free addr] }

/-- `memory.copy(dst, src, n)`. -/
def memCopy (s : State) (dst src n : Nat) : State :=
  { s with mem := memmove s.mem dst src n,
           events := s.events ++ [Event.copy dst src n] }

/-- `memory.fill(dst, v, n)`. -/
def memFill (s : State) (dst v n : Nat) : State :=
  { s with mem := memset s.mem dst v n,
           events := s.events ++ [Event.fill dst v n] }

/-- 32-bit store into the state's memory (plain memory write, no event). -/
def sstore32 (s : State) (a v : Nat) : State :=
  { s with mem := store32 s.mem a v }

/-- 32-bit load from the state's memory. -/
def sload32 (s : State) (a : Nat) : Nat :=
  load32 s.mem a

/-- `runtime.allocate(payloadSize)`: requests `adjust(payloadSize)` bytes from
the backing allocator, writes `classId = HEADER_MAGIC` and
`payloadSize`, zeroes both reserved fields when a collector is compiled in,
and returns the payload reference `header + HEADER_SIZE`. -/
def allocate (gc : Bool) (s : State) (payloadSize : Nat) : State × Nat :=
  let p := memAllocate s (adjust gc payloadSize)
  let s1 := p.1
  let header := p.2
  let s2 := sstore32 s1 header HEADER_MAGIC
  let s3 := sstore32 s2 (header + 4) payloadSize
  let s4 := if gc then sstore32 (sstore32 s3 (header + 8) 0) (header + 12) 0 else s3
  (s4, header + HEADER_SIZE gc)

/-- `runtime.reallocate(ref, newPayloadSize)`, checked build. On growth past
the current block (or on a non-heap object) it allocates a fresh block,
copies the classId and the old payload, zero-fills the grown remainder, then
frees the old block if it was still scratch (asserting it is a heap object)
or, when a collector is present, calls `__ref_register(ref)` — note the
source calls the hook before `ref` is reassigned to `newRef`. On growth
within the block it just zero-fills the newly exposed tail. Finally the
(possibly new) header's payloadSize is set and the (possibly new) reference
returned. -/
def reallocate (gc : Bool) (s : State) (ref newPayloadSize : Nat) : Option (State × Nat) :=
  let header := ref - HEADER_SIZE gc
  let payloadSize := sload32 s (header + 4)
  if payloadSize < newPayloadSize then
    let newAdjustedSize := adjust gc newPayloadSize
    if (if ref > HEAP_BASE then adjust gc payloadSize else 0) < newAdjustedSize then
      let p := memAllocate s newAdjustedSize
      let s1 := p.1
      let newHeader := p.2
      let s2 := sstore32 s1 newHeader (sload32 s1 header)
      let s3 := if gc then sstore32 (sstore32 s2 (newHeader + 8) 0) (newHeader + 12) 0 else s2
      let newRef := newHeader + HEADER_SIZE gc
      let s4 := memCopy s3 newRef ref payloadSize
      let s5 := memFill s4 (newRef + payloadSize) 0 (newPayloadSize - payloadSize)
      if sload32 s5 header = HEADER_MAGIC then
        if ref > HEAP_BASE then
          let s6 := memFree s5 header
          some (sstore32 s6 (newHeader + 4) newPayloadSize, newRef)
        else none
      else
        let s6 := if gc then { s5 with events := s5.events ++ [Event.regHook ref] } else s5
        some (sstore32 s6 (newHeader + 4) newPayloadSize, newRef)
    else
      let s1 := memFill s (ref + payloadSize) 0 (newPayloadSize - payloadSize)
      some (sstore32 s1 (header + 4) newPayloadSize, ref)
  else
    some (sstore32 s (header + 4) newPayloadSize, ref)

/-- `runtime.discard(ref)`, checked build: asserts `ref > HEAP_BASE` and
`classId == HEADER_MAGIC`, then frees the block at the header address. -/
def discard (gc : Bool) (s : State) (ref : Nat) : Option State :=
  if ref > HEAP_BASE then
    if sload32 s (ref - HEADER_SIZE gc) = HEADER_MAGIC then
      some (memFree s (ref - HEADER_SIZE gc))
    else none
  else none

/-- `runtime.register(ref, classId)`, checked build: asserts `ref >
HEAP_BASE` and `classId == HEADER_MAGIC`, overwrites the header's classId,
then calls `__ref_register(ref)` when the collector is compiled in. -/
def register (gc : Bool) (s : State) (ref cid : Nat) : Option (State × Nat) :=
  if ref > HEAP_BASE then
    if sload32 s (ref - HEADER_SIZE gc) = HEADER_MAGIC then
      let s1 := sstore32 s (ref - HEADER_SIZE gc) cid
      let s2 := if gc then { s1 with events := s1.events ++ [Event.regHook ref] } else s1
      some (s2, ref)
    else none
  else none

/-- Modelled from the spec: the compile-time constant `classId<ArrayBuffer>()`
(the canonical buffer type's unique positive id); `std/assembly/arraybuffer.ts`
is not part of the sources, so the concrete value is an arbitrary positive
id distinct from `HEADER_MAGIC`. -/
def ARRAYBUFFER_ID : Nat := 2

/-- Modelled from the spec: the layout of `Array<i32>` / `ArrayBufferView`
(`std/assembly/arraybuffer.ts` is not part of the sources). Per the spec's
layout contract and WASM32 word size: `data` at offset 0, `dataStart` at 4,
`dataLength` at 8, `length_` at 12, hence `offsetof<i32[]>() = 16`. -/
def ARRAY_OBJECT_SIZE : Nat := 16

/-- `runtime.makeArray(capacity, cid, alignLog2, source)`: allocates and
registers the array object, then allocates and registers the backing buffer
(`capacity << alignLog2` bytes, u32 shift semantics), stores the buffer into
the array's `data` field (the assignment marked `// links` in the source,
which — modelled from the spec, the compiler's field-store code generation
not being part of the sources — emits `link(buffer, array)` to the collector
when one is compiled in), sets `dataStart`, `dataLength` and the `length_`
field, and copies `bufferSize` bytes from `source` when it is nonzero. -/
def makeArray (gc : Bool) (s : State) (capacity cid alignLog2 source : Nat) :
    Option (State × Nat) :=
  let pa := allocate gc s ARRAY_OBJECT_SIZE
  match register gc pa.1 pa.2 cid with
  | none => none
  | some (s2, array) =>
    let bufferSize := (capacity <<< (alignLog2 % 32)) % 4294967296
    let pb := allocate gc s2 bufferSize
    match register gc pb.1 pb.2 ARRAYBUFFER_ID with
    | none => none
    | some (s4, buffer) =>
      let s5 := sstore32 s4 array buffer
      let s5l := if gc then { s5 with events := s5.events ++ [Event.linkHook buffer array] } else s5
      let s6 := sstore32 s5l (array + 4) buffer
      let s7 := sstore32 s6 (array + 8) bufferSize
      let s8 := sstore32 s7 (array + 12) capacity
      let s9 := if source ≠ 0 then memCopy s8 buffer source bufferSize else s8
      some (s9, array)

/-- Recognizes backing-allocator allocation events. -/
def Event.isAlloc : Event → Bool
  | .alloc _ _ => true
  | _ => false

/-- Recognizes collector register-hook events. -/
def Event.isRegHook : Event → Bool
  | .regHook _ => true
  | _ => false

/-- The ordering property asserted by the spec for `makeArray`: every
backing-allocator allocation precedes every collector register call, i.e.
no allocation occurs at or after the first register call in the trace. -/
def allocsPrecedeRegs (evs : List Event) : Bool :=
  ((evs.dropWhile fun e => !e.isRegHook).filter Event.isAlloc).isEmpty

/-- A concrete state holding one already-registered object at reference 88
(classId 9): `allocate(4)` followed by `register(88, 9)` from a fresh state. -/
def registeredState : State :=
  ((register true (allocate true initState 4).1 88 9).getD ⟨initState, 0⟩).1

/-- The state after the spec's array scenario
`makeArray(capacity := 4, typeId := 7, alignLog2 := 2, source := null)`
run from a fresh state with the collector compiled in. -/
def arrayScenario : State :=
  ((makeArray true initState 4 7 2 0).getD ⟨initState, 0⟩).1

/-- The result of growing the registered object of `registeredState`
(payloadSize 4) to payload size 100, which crosses the size class and
forces a move. -/
def staleRealloc : State × Nat :=
  (reallocate true registeredState 88 100).getD ⟨initState, 0⟩

end AscRuntime

namespace AscGc

/-- Outcome of a call into the `gc` namespace: either the corresponding
collector hook is invoked with the given arguments, or the call fails
fatally with a diagnostic (`ERROR`), or it emits a non-fatal warning
(`WARNING`) and continues. -/
inductive GcAction where
  | hook (name : String) (args : List Nat)
  | fatal (message : String)
  | warn (message : String)
  deriving DecidableEq

/-- `gc.register(ref)`: forwards to `__gc_register` when implemented, else
fails fatally naming the missing hook. The build-time `isDefined(__gc_register)`
switch is the `implemented` parameter. -/
def gcRegister (implemented : Bool) (ref : Nat) : GcAction :=
  if implemented then .hook "__gc_register" [ref]
  else .fatal "missing implementation: gc.register"

/-- `gc.link(ref, parentRef)`: forwards to `__gc_link` when implemented, else
fails fatally naming the missing hook. -/
def gcLink (implemented : Bool) (ref parentRef : Nat) : GcAction :=
  if implemented then .hook "__gc_link" [ref, parentRef]
  else .fatal "missing implementation: gc.link"

/-- `gc.mark(ref)`: forwards to `__gc_mark` when implemented, else fails
fatally naming the missing hook. -/
def gcMark (implemented : Bool) (ref : Nat) : GcAction :=
  if implemented then .hook "__gc_mark" [ref]
  else .fatal "missing implementation: gc.mark"

/-- `gc.collect()`: forwards to `__gc_collect` when implemented, else only
emits a non-fatal warning naming the missing hook. -/
def gcCollect (implemented : Bool) : GcAction :=
  if implemented then .hook "__gc_collect" []
  else .warn "missing implementation: gc.collect"

end AscGc

namespace AscRuntime

theorem store32_outside (m : Nat → Nat) (a v x : Nat) (h : x < a ∨ a + 4 ≤ x) :
    store32 m a v x = m x := by
  have h1 : x ≠ a := by omega
  have h2 : x ≠ a + 1 := by omega
  have h3 : x ≠ a + 2 := by omega
  have h4 : x ≠ a + 3 := by omega
  simp [store32, h1, h2, h3, h4]

theorem load32_store32_same (m : Nat → Nat) (a v : Nat) :
    load32 (store32 m a v) a = v % 4294967296 := by
  have h1 : a + 1 ≠ a := by omega
  have h2 : a + 2 ≠ a := by omega
  have h3 : a + 3 ≠ a := by omega
  have h4 : a + 2 ≠ a + 1 := by omega
  have h5 : a + 3 ≠ a + 1 := by omega
  have h6 : a + 3 ≠ a + 2 := by omega
  simp [load32, store32, h1, h2, h3, h4, h5, h6]
  omega

theorem load32_store32_outside (m : Nat → Nat) (a v b : Nat)
    (h : b + 4 ≤ a ∨ a + 4 ≤ b) :
    load32 (store32 m a v) b = load32 m b := by
  simp only [load32]
  rw [store32_outside m a v b (by omega), store32_outside m a v (b + 1) (by omega),
    store32_outside m a v (b + 2) (by omega), store32_outside m a v (b + 3) (by omega)]

theorem load32_eq_of_agree (m m2 : Nat → Nat) (a : Nat)
    (h0 : m a = m2 a) (h1 : m (a + 1) = m2 (a + 1))
    (h2 : m (a + 2) = m2 (a + 2)) (h3 : m (a + 3) = m2 (a + 3)) :
    load32 m a = load32 m2 a := by
  simp [load32, h0, h1, h2, h3]

theorem memmove_inside (m : Nat → Nat) (dst src n x : Nat)
    (h1 : dst ≤ x) (h2 : x < dst + n) :
    memmove m dst src n x = m (src + (x - dst)) := by
  simp [memmove, h1, h2]

theorem memmove_outside (m : Nat → Nat) (dst src n x : Nat)
    (h : x < dst ∨ dst + n ≤ x) :
    memmove m dst src n x = m x := by
  have : ¬(dst ≤ x ∧ x < dst + n) := by omega
  simp [memmove, this]

theorem memset_inside (m : Nat → Nat) (dst v n x : Nat)
    (h1 : dst ≤ x) (h2 : x < dst + n) :
    memset m dst v n x = v % 256 := by
  simp [memset, h1, h2]

theorem memset_outside (m : Nat → Nat) (dst v n x : Nat)
    (h : x < dst ∨ dst + n ≤ x) :
    memset m dst v n x = m x := by
  have : ¬(dst ≤ x ∧ x < dst + n) := by omega
  simp [memset, this]

theorem load32_memmove_outside (m : Nat → Nat) (dst src n b : Nat)
    (h : b + 4 ≤ dst ∨ dst + n ≤ b) :
    load32 (memmove m dst src n) b = load32 m b := by
  simp only [load32]
  rw [memmove_outside m dst src n b (by omega), memmove_outside m dst src n (b + 1) (by omega),
    memmove_outside m dst src n (b + 2) (by omega), memmove_outside m dst src n (b + 3) (by omega)]

theorem load32_memset_outside (m : Nat → Nat) (dst v n b : Nat)
    (h : b + 4 ≤ dst ∨ dst + n ≤ b) :
    load32 (memset m dst v n) b = load32 m b := by
  simp only [load32]
  rw [memset_outside m dst v n b (by omega), memset_outside m dst v n (b + 1) (by omega),
    memset_outside m dst v n (b + 2) (by omega), memset_outside m dst v n (b + 3) (by omega)]

theorem bits_zero (fuel : Nat) : bits fuel 0 = 0 := by
  cases fuel <;> simp [bits]

theorem bits_bounds (fuel : Nat) : ∀ n, 0 < n → n < 2 ^ fuel →
    0 < bits fuel n ∧ 2 ^ (bits fuel n - 1) ≤ n ∧ n < 2 ^ bits fuel n := by
  induction fuel with
  | zero => intro n hn hlt; omega
  | succ fuel ih =>
    intro n hn hlt
    have hne : n ≠ 0 := by omega
    rw [bits, if_neg hne]
    by_cases h1 : n = 1
    · subst h1
      rw [show (1 : Nat) / 2 = 0 by norm_num, bits_zero]
      norm_num
    · have hhalf : 0 < n / 2 := by omega
      have hhalflt : n / 2 < 2 ^ fuel := by
        have hp : 2 ^ (fuel + 1) = 2 * 2 ^ fuel := by rw [pow_succ]; ring
        omega
      obtain ⟨hb0, hblow, hbhigh⟩ := ih (n / 2) hhalf hhalflt
      set b := bits fuel (n / 2) with hb
      have hd1 : 2 ^ b = 2 * 2 ^ (b - 1) := by
        conv_lhs => rw [show b = (b - 1) + 1 by omega]
        rw [pow_succ]; ring
      have hd2 : 2 ^ (b + 1) = 2 * 2 ^ b := by rw [pow_succ]; ring
      refine ⟨by omega, ?_, ?_⟩
      · simp only [Nat.add_sub_cancel]
        omega
      · omega

theorem adjust_bounds (gc : Bool) (p : Nat) (hp : p ≤ MAX_BYTELENGTH gc) :
    (∃ k, adjust gc p = 2 ^ k) ∧
    p + HEADER_SIZE gc ≤ adjust gc p ∧ adjust gc p < 2 * (p + HEADER_SIZE gc) := by
  have hH : HEADER_SIZE gc = 16 ∨ HEADER_SIZE gc = 8 := by
    cases gc <;> simp [HEADER_SIZE]
  have hmax : p + HEADER_SIZE gc ≤ 1073741824 := by
    have hm : MAX_BYTELENGTH gc = 1073741824 - HEADER_SIZE gc := by
      simp [MAX_BYTELENGTH, MAX_SIZE_32]
    omega
  set H := HEADER_SIZE gc with hHdef
  set n := p + H - 1 with hn
  have hn7 : 7 ≤ n := by omega
  have hnlt : n < 1073741824 := by omega
  have hpow32 : (1073741824 : Nat) < 2 ^ 32 := by norm_num
  obtain ⟨hb0, hblow, hbhigh⟩ := bits_bounds 32 n (by omega) (by
    calc n < 1073741824 := hnlt
    _ < 2 ^ 32 := hpow32)
  set b := bits 32 n with hb
  have hd1 : 2 ^ b = 2 * 2 ^ (b - 1) := by
    conv_lhs => rw [show b = (b - 1) + 1 by omega]
    rw [pow_succ]; ring
  have hb3 : 3 ≤ b := by
    by_contra hcon
    have : b ≤ 2 := by omega
    have : (2 : Nat) ^ b ≤ 2 ^ 2 := Nat.pow_le_pow_right (by norm_num) this
    norm_num at this
    omega
  have hble : b ≤ 30 := by
    by_contra hcon
    have h31 : 31 ≤ b := by omega
    have : (2 : Nat) ^ 30 ≤ 2 ^ (b - 1) :=
      Nat.pow_le_pow_right (by norm_num) (by omega)
    norm_num at this
    omega
  have hmod : (p + H - 1) % 4294967296 = n := Nat.mod_eq_of_lt (by omega)
  have hclz : clz32 n = 32 - b := by rw [clz32, hb]
  have hsh : (32 - (32 - b)) % 32 = b := by omega
  have hble2 : 2 ^ b ≤ 1073741824 := by
    calc 2 ^ b ≤ 2 ^ 30 := Nat.pow_le_pow_right (by norm_num) hble
    _ = 1073741824 := by norm_num
  have hadj : adjust gc p = 2 ^ b := by
    rw [adjust, ← hHdef, hmod, hclz, hsh, Nat.shiftLeft_eq, one_mul]
    exact Nat.mod_eq_of_lt (by omega)
  refine ⟨⟨b, hadj⟩, ?_, ?_⟩ <;> omega

theorem allocate_true_eq (s : State) (p : Nat) :
    allocate true s p =
      ({ mem := store32 (store32 (store32 (store32 s.mem s.next HEADER_MAGIC)
            (s.next + 4) p) (s.next + 8) 0) (s.next + 12) 0,
         next := s.next + adjust true p,
         events := s.events ++ [Event.alloc (adjust true p) s.next] },
       s.next + 16) := rfl

theorem allocate_false_eq (s : State) (p : Nat) :
    allocate false s p =
      ({ mem := store32 (store32 s.mem s.next HEADER_MAGIC) (s.next + 4) p,
         next := s.next + adjust false p,
         events := s.events ++ [Event.alloc (adjust false p) s.next] },
       s.next + 8) := rfl

/-- C3: for every payloadSize up to `MAX_BYTELENGTH`, `adjust` returns a
power of two that is at least `payloadSize + HEADER_SIZE` and strictly less
than twice `payloadSize + HEADER_SIZE`, in both build configurations. -/
theorem C3_adjust_size_class (gc : Bool) (p : Nat) (hp : p ≤ MAX_BYTELENGTH gc) :
    (∃ k, adjust gc p = 2 ^ k) ∧
    p + HEADER_SIZE gc ≤ adjust gc p ∧ adjust gc p < 2 * (p + HEADER_SIZE gc) :=
  adjust_bounds gc p hp

theorem C3_adjust_size_class_witness :
    100 ≤ MAX_BYTELENGTH true ∧
    ((∃ k, adjust true 100 = 2 ^ k) ∧
      100 + HEADER_SIZE true ≤ adjust true 100 ∧
      adjust true 100 < 2 * (100 + HEADER_SIZE true)) :=
  ⟨by decide, C3_adjust_size_class true 100 (by decide)⟩

/-- C5: immediately after `ref = allocate(n)` the header preceding `ref` has
`classId = HEADER_MAGIC` and `payloadSize = n`, and when a collector is
compiled in both reserved header fields read back zero. -/
theorem C5_allocate_header (gc : Bool) (s0 s1 : State) (r n : Nat)
    (halloc : allocate gc s0 n = (s1, r)) (hn : n < 4294967296) :
    sload32 s1 (r - HEADER_SIZE gc) = HEADER_MAGIC ∧
    sload32 s1 (r - HEADER_SIZE gc + 4) = n ∧
    (gc = true → sload32 s1 (r - HEADER_SIZE gc + 8) = 0 ∧
      sload32 s1 (r - HEADER_SIZE gc + 12) = 0) := by
  have hmagic : HEADER_MAGIC % 4294967296 = HEADER_MAGIC := by norm_num [HEADER_MAGIC]
  cases gc
  · rw [allocate_false_eq] at halloc
    injection halloc with hs hr
    subst hs; subst hr
    have hhdr : s0.next + 8 - HEADER_SIZE false = s0.next := by simp [HEADER_SIZE]
    refine ⟨?_, ?_, by simp⟩
    · rw [sload32, hhdr]
      rw [load32_store32_outside _ _ _ _ (by omega), load32_store32_same]
      exact hmagic
    · rw [sload32, hhdr, load32_store32_same]
      exact Nat.mod_eq_of_lt hn
  · rw [allocate_true_eq] at halloc
    injection halloc with hs hr
    subst hs; subst hr
    have hhdr : s0.next + 16 - HEADER_SIZE true = s0.next := by simp [HEADER_SIZE]
    refine ⟨?_, ?_, fun _ => ⟨?_, ?_⟩⟩
    · rw [sload32, hhdr]
      rw [load32_store32_outside _ _ _ _ (by omega), load32_store32_outside _ _ _ _ (by omega),
        load32_store32_outside _ _ _ _ (by omega), load32_store32_same]
      exact hmagic
    · rw [sload32, hhdr]
      rw [load32_store32_outside _ _ _ _ (by omega), load32_store32_outside _ _ _ _ (by omega),
        load32_store32_same]
      exact Nat.mod_eq_of_lt hn
    · rw [sload32, hhdr]
      rw [load32_store32_outside _ _ _ _ (by omega), load32_store32_same]
    · rw [sload32, hhdr, load32_store32_same]

theorem C5_allocate_header_witness :
    (5 : Nat) < 4294967296 ∧
    (sload32 (allocate true initState 5).1 ((allocate true initState 5).2 - HEADER_SIZE true) = HEADER_MAGIC ∧
      sload32 (allocate true initState 5).1 ((allocate true initState 5).2 - HEADER_SIZE true + 4) = 5 ∧
      (true = true → sload32 (allocate true initState 5).1 ((allocate true initState 5).2 - HEADER_SIZE true + 8) = 0 ∧
        sload32 (allocate true initState 5).1 ((allocate true initState 5).2 - HEADER_SIZE true + 12) = 0)) :=
  ⟨by decide, C5_allocate_header true initState (allocate true initState 5).1
    (allocate true initState 5).2 5 rfl (by decide)⟩

theorem allocate_spec (gc : Bool) (s0 s1 : State) (r n : Nat)
    (halloc : allocate gc s0 n = (s1, r)) (hn : n < 4294967296) :
    r = s0.next + HEADER_SIZE gc ∧ s1.next = s0.next + adjust gc n ∧
    s1.events = s0.events ++ [Event.alloc (adjust gc n) s0.next] ∧
    load32 s1.mem s0.next = HEADER_MAGIC ∧
    load32 s1.mem (s0.next + 4) = n ∧
    (∀ x, x < s0.next ∨ s0.next + HEADER_SIZE gc ≤ x → s1.mem x = s0.mem x) := by
  have hmagic : HEADER_MAGIC % 4294967296 = HEADER_MAGIC := by norm_num [HEADER_MAGIC]
  cases gc
  · have hH : HEADER_SIZE false = 8 := rfl
    rw [allocate_false_eq] at halloc
    injection halloc with hs hr
    subst hs
    refine ⟨by omega, rfl, rfl, ?_, ?_, ?_⟩
    · rw [load32_store32_outside _ _ _ _ (by omega), load32_store32_same]
      exact hmagic
    · rw [load32_store32_same]
      exact Nat.mod_eq_of_lt hn
    · intro x hx
      rw [hH] at hx
      dsimp only
      rw [store32_outside _ _ _ _ (by omega), store32_outside _ _ _ _ (by omega)]
  · have hH : HEADER_SIZE true = 16 := rfl
    rw [allocate_true_eq] at halloc
    injection halloc with hs hr
    subst hs
    refine ⟨by omega, rfl, rfl, ?_, ?_, ?_⟩
    · rw [load32_store32_outside _ _ _ _ (by omega), load32_store32_outside _ _ _ _ (by omega),
        load32_store32_outside _ _ _ _ (by omega), load32_store32_same]
      exact hmagic
    · rw [load32_store32_outside _ _ _ _ (by omega), load32_store32_outside _ _ _ _ (by omega),
        load32_store32_same]
      exact Nat.mod_eq_of_lt hn
    · intro x hx
      rw [hH] at hx
      dsimp only
      rw [store32_outside _ _ _ _ (by omega), store32_outside _ _ _ _ (by omega),
        store32_outside _ _ _ _ (by omega), store32_outside _ _ _ _ (by omega)]

theorem reallocate_grow_inplace (gc : Bool) (s : State) (ref n2 p : Nat)
    (hp : sload32 s (ref - HEADER_SIZE gc + 4) = p)
    (hlt : p < n2)
    (hcond : ¬(if ref > HEAP_BASE then adjust gc p else 0) < adjust gc n2) :
    reallocate gc s ref n2 =
      some (⟨store32 (memset s.mem (ref + p) 0 (n2 - p)) (ref - HEADER_SIZE gc + 4) n2,
             s.next, s.events ++ [Event.fill (ref + p) 0 (n2 - p)]⟩, ref) := by
  simp only [reallocate, memFill, sstore32]
  rw [hp, if_pos hlt, if_neg hcond]

theorem reallocate_move_scratch (gc : Bool) (s : State) (ref n2 p : Nat)
    (hp : sload32 s (ref - HEADER_SIZE gc + 4) = p)
    (hlt : p < n2)
    (hcond : (if ref > HEAP_BASE then adjust gc p else 0) < adjust gc n2)
    (hmagic : load32 s.mem (ref - HEADER_SIZE gc) = HEADER_MAGIC)
    (hrefl : HEADER_SIZE gc ≤ ref)
    (hsep : ref + p ≤ s.next)
    (hheap : ref > HEAP_BASE) :
    reallocate gc s ref n2 =
      some (⟨store32
              (memset
                (memmove
                  (if gc then
                    store32 (store32 (store32 s.mem s.next HEADER_MAGIC) (s.next + 8) 0)
                      (s.next + 12) 0
                  else store32 s.mem s.next HEADER_MAGIC)
                  (s.next + HEADER_SIZE gc) ref p)
                (s.next + HEADER_SIZE gc + p) 0 (n2 - p))
              (s.next + 4) n2,
             s.next + adjust gc n2,
             s.events ++ [Event.alloc (adjust gc n2) s.next,
               Event.copy (s.next + HEADER_SIZE gc) ref p,
               Event.fill (s.next + HEADER_SIZE gc + p) 0 (n2 - p),
               Event.free (ref - HEADER_SIZE gc)]⟩,
            s.next + HEADER_SIZE gc) := by
  have hH : HEADER_SIZE gc = 16 ∨ HEADER_SIZE gc = 8 := by
    cases gc <;> simp [HEADER_SIZE]
  have hm3 : ∀ x, x < s.next + 8 ∨ s.next + 16 ≤ x →
      (if gc then
        store32 (store32 (store32 s.mem s.next HEADER_MAGIC) (s.next + 8) 0) (s.next + 12) 0
      else store32 s.mem s.next HEADER_MAGIC) x =
      store32 s.mem s.next HEADER_MAGIC x := by
    intro x hx
    cases gc
    · rfl
    · simp only [if_pos]
      rw [store32_outside _ _ _ _ (by omega), store32_outside _ _ _ _ (by omega)]
  have hguard : load32
      (memset
        (memmove
          (if gc then
            store32 (store32 (store32 s.mem s.next HEADER_MAGIC) (s.next + 8) 0)
              (s.next + 12) 0
          else store32 s.mem s.next HEADER_MAGIC)
          (s.next + HEADER_SIZE gc) ref p)
        (s.next + HEADER_SIZE gc + p) 0 (n2 - p))
      (ref - HEADER_SIZE gc) = HEADER_MAGIC := by
    rw [load32_memset_outside _ _ _ _ _ (by omega), load32_memmove_outside _ _ _ _ _ (by omega)]
    rw [load32_eq_of_agree _ (store32 s.mem s.next HEADER_MAGIC) _
      (hm3 _ (by omega)) (hm3 _ (by omega)) (hm3 _ (by omega)) (hm3 _ (by omega))]
    rw [load32_store32_outside _ _ _ _ (by omega)]
    exact hmagic
  simp only [reallocate]
  rw [hp, if_pos hlt, if_pos hcond]
  simp only [memAllocate, memCopy, memFill, memFree, sstore32, sload32,
    apply_ite State.mem, apply_ite State.next, apply_ite State.events, ite_self]
  rw [hmagic, hguard, if_pos rfl, if_pos hheap]
  simp [List.append_assoc]

theorem register_eq_some (gc : Bool) (s : State) (ref cid : Nat)
    (hh : ref > HEAP_BASE)
    (hm : sload32 s (ref - HEADER_SIZE gc) = HEADER_MAGIC) :
    register gc s ref cid =
      some (⟨store32 s.mem (ref - HEADER_SIZE gc) cid, s.next,
             if gc then s.events ++ [Event.regHook ref] else s.events⟩, ref) := by
  unfold register
  rw [if_pos hh, if_pos hm]
  cases gc <;> rfl

theorem register_eq_none_of_not_magic (gc : Bool) (s : State) (ref cid : Nat)
    (hm : sload32 s (ref - HEADER_SIZE gc) ≠ HEADER_MAGIC) :
    register gc s ref cid = none := by
  unfold register
  by_cases hh : ref > HEAP_BASE
  · rw [if_pos hh, if_neg hm]
  · rw [if_neg hh]

theorem register_eq_none_of_static (gc : Bool) (s : State) (ref cid : Nat)
    (hh : ¬ref > HEAP_BASE) :
    register gc s ref cid = none := by
  unfold register
  rw [if_neg hh]

/-- C6: `register` is not idempotent — on a header whose classId is not
`HEADER_MAGIC` (in particular after a successful register) the checked-build
assertion fails; a successful register overwrites the classId with the type
id exactly once, and a second register on the same reference is rejected. -/
theorem C6_register_not_idempotent (gc : Bool) (s : State) (ref cid : Nat)
    (hcid : cid < 4294967296) :
    (sload32 s (ref - HEADER_SIZE gc) ≠ HEADER_MAGIC → register gc s ref cid = none) ∧
    (∀ s' r', register gc s ref cid = some (s', r') →
      r' = ref ∧ sload32 s' (ref - HEADER_SIZE gc) = cid ∧
      (cid ≠ HEADER_MAGIC → ∀ cid2, register gc s' ref cid2 = none)) := by
  constructor
  · intro hne
    exact register_eq_none_of_not_magic gc s ref cid hne
  · intro s' r' hreg
    by_cases hh : ref > HEAP_BASE
    swap
    · rw [register_eq_none_of_static gc s ref cid hh] at hreg
      cases hreg
    by_cases hm : sload32 s (ref - HEADER_SIZE gc) = HEADER_MAGIC
    swap
    · rw [register_eq_none_of_not_magic gc s ref cid hm] at hreg
      cases hreg
    rw [register_eq_some gc s ref cid hh hm] at hreg
    injection hreg with hpair
    injection hpair with hs' hr'
    have hload : sload32 s' (ref - HEADER_SIZE gc) = cid := by
      rw [← hs']
      show load32 (store32 s.mem (ref - HEADER_SIZE gc) cid) (ref - HEADER_SIZE gc) = cid
      rw [load32_store32_same]
      exact Nat.mod_eq_of_lt hcid
    refine ⟨hr'.symm, hload, fun hne cid2 => ?_⟩
    exact register_eq_none_of_not_magic gc s' ref cid2 (by rw [hload]; exact hne)

/-- C7: `discard` requires an unregistered (MAGIC) header; when the header is
MAGIC and the reference is a heap object it frees the block at the header
address via the backing allocator and changes nothing else, while on a
registered object the checked-build assertion fails before any free. -/
theorem C7_discard_requires_magic (gc : Bool) (s : State) (ref : Nat) :
    (sload32 s (ref - HEADER_SIZE gc) = HEADER_MAGIC → ref > HEAP_BASE →
      discard gc s ref =
        some { s with events := s.events ++ [Event.free (ref - HEADER_SIZE gc)] }) ∧
    (sload32 s (ref - HEADER_SIZE gc) ≠ HEADER_MAGIC → discard gc s ref = none) := by
  constructor
  · intro hm hh
    unfold discard
    rw [if_pos hh, if_pos hm]
    rfl
  · intro hm
    unfold discard
    by_cases hh : ref > HEAP_BASE
    · rw [if_pos hh, if_neg hm]
    · rw [if_neg hh]

/-- C10: reallocating to a payload size no larger than the current one
returns the same reference, makes no backing-allocator call (no allocate,
free, copy or fill event), and changes nothing but the header's payloadSize
field, regardless of size class and of heap/static placement. -/
theorem C10_shrink_updates_header_only (gc : Bool) (s : State) (ref n2 : Nat)
    (href : HEADER_SIZE gc ≤ ref) (hn2 : n2 < 4294967296)
    (hle : n2 ≤ sload32 s (ref - HEADER_SIZE gc + 4)) :
    ∃ s3, reallocate gc s ref n2 = some (s3, ref) ∧
      s3.events = s.events ∧ s3.next = s.next ∧
      (∀ x, x < ref - HEADER_SIZE gc + 4 ∨ ref - HEADER_SIZE gc + 8 ≤ x →
        s3.mem x = s.mem x) ∧
      sload32 s3 (ref - HEADER_SIZE gc + 4) = n2 := by
  have hnot : ¬sload32 s (ref - HEADER_SIZE gc + 4) < n2 := by omega
  refine ⟨sstore32 s (ref - HEADER_SIZE gc + 4) n2, ?_, rfl, rfl, ?_, ?_⟩
  · simp only [reallocate]
    rw [if_neg hnot]
  · intro x hx
    exact store32_outside _ _ _ _ (by omega)
  · show load32 (store32 s.mem (ref - HEADER_SIZE gc + 4) n2) (ref - HEADER_SIZE gc + 4) = n2
    rw [load32_store32_same]
    exact Nat.mod_eq_of_lt hn2

theorem C6_register_not_idempotent_witness :
    sload32 registeredState (88 - HEADER_SIZE true) ≠ HEADER_MAGIC ∧
    register true registeredState 88 11 = none :=
  ⟨by decide,
   (C6_register_not_idempotent true registeredState 88 11 (by decide)).1 (by decide)⟩

theorem C7_discard_requires_magic_witness :
    discard true (allocate true initState 4).1 88 =
      some { (allocate true initState 4).1 with
             events := (allocate true initState 4).1.events ++
               [Event.free (88 - HEADER_SIZE true)] } ∧
    discard true registeredState 88 = none :=
  ⟨(C7_discard_requires_magic true (allocate true initState 4).1 88).1 (by decide) (by decide),
   (C7_discard_requires_magic true registeredState 88).2 (by decide)⟩

/-- C4: grow round-trip — for `ref = allocate(n)` and any writes confined to
the payload `[ref, ref + n)`, `reallocate(ref, n2)` with `n2 > n` succeeds,
every payload byte in `[0, n)` reads back unchanged through the possibly new
reference, and every byte in `[n, n2)` reads zero. -/
theorem C4_grow_roundtrip (gc : Bool) (s0 s1 s2 : State) (r n n2 : Nat)
    (halloc : allocate gc s0 n = (s1, r))
    (hheap : HEAP_BASE < s0.next)
    (hn : n < n2) (hn2 : n2 ≤ MAX_BYTELENGTH gc)
    (hmem : ∀ x, x < r ∨ r + n ≤ x → s2.mem x = s1.mem x)
    (hnext : s2.next = s1.next) :
    ∃ s3 r2, reallocate gc s2 r n2 = some (s3, r2) ∧
      (∀ i, i < n → s3.mem (r2 + i) = s2.mem (r + i)) ∧
      (∀ i, n ≤ i → i < n2 → s3.mem (r2 + i) = 0) := by
  have hH : HEADER_SIZE gc = 16 ∨ HEADER_SIZE gc = 8 := by
    cases gc <;> simp [HEADER_SIZE]
  have hmaxeq : MAX_BYTELENGTH gc = 1073741824 - HEADER_SIZE gc := by
    simp [MAX_BYTELENGTH, MAX_SIZE_32]
  have hnle : n < 4294967296 := by omega
  obtain ⟨hr, hnext1, hev1, hmg1, hpl1, hframe1⟩ := allocate_spec gc s0 s1 r n halloc hnle
  have hhdr : r - HEADER_SIZE gc = s0.next := by omega
  have hpl2 : sload32 s2 (r - HEADER_SIZE gc + 4) = n := by
    rw [sload32, hhdr]
    rw [load32_eq_of_agree s2.mem s1.mem _ (hmem _ (by omega)) (hmem _ (by omega))
      (hmem _ (by omega)) (hmem _ (by omega))]
    exact hpl1
  have hmg2 : load32 s2.mem (r - HEADER_SIZE gc) = HEADER_MAGIC := by
    rw [hhdr]
    rw [load32_eq_of_agree s2.mem s1.mem _ (hmem _ (by omega)) (hmem _ (by omega))
      (hmem _ (by omega)) (hmem _ (by omega))]
    exact hmg1
  have hrb : r > HEAP_BASE := by omega
  obtain ⟨-, hadj1, hadj2⟩ := adjust_bounds gc n (by omega)
  by_cases hc : adjust gc n < adjust gc n2
  · -- crosses the size class: the object moves to a fresh block
    have hcond : (if r > HEAP_BASE then adjust gc n else 0) < adjust gc n2 := by
      rw [if_pos hrb]; exact hc
    have hsep : r + n ≤ s2.next := by
      rw [hnext, hnext1]; omega
    have heq := reallocate_move_scratch gc s2 r n2 n hpl2 hn hcond hmg2 (by omega) hsep hrb
    have hm3 : ∀ x, x < s2.next →
        (if gc then
          store32 (store32 (store32 s2.mem s2.next HEADER_MAGIC) (s2.next + 8) 0)
            (s2.next + 12) 0
        else store32 s2.mem s2.next HEADER_MAGIC) x = s2.mem x := by
      intro x hx
      cases gc
      · exact store32_outside _ _ _ _ (by omega)
      · simp only [if_pos]
        rw [store32_outside _ _ _ _ (by omega), store32_outside _ _ _ _ (by omega),
          store32_outside _ _ _ _ (by omega)]
    refine ⟨_, s2.next + HEADER_SIZE gc, heq, ?_, ?_⟩
    · intro i hi
      dsimp only
      rw [store32_outside _ _ _ _ (by omega)]
      rw [memset_outside _ _ _ _ _ (by omega)]
      rw [memmove_inside _ _ _ _ _ (by omega) (by omega)]
      have hidx : s2.next + HEADER_SIZE gc + i - (s2.next + HEADER_SIZE gc) = i := by omega
      rw [hidx]
      exact hm3 (r + i) (by omega)
    · intro i hni hi
      dsimp only
      rw [store32_outside _ _ _ _ (by omega)]
      rw [memset_inside _ _ _ _ _ (by omega) (by omega)]
  · -- same size class: grows in place, zero-filling only the new tail
    have hcond : ¬(if r > HEAP_BASE then adjust gc n else 0) < adjust gc n2 := by
      rw [if_pos hrb]; exact hc
    have heq := reallocate_grow_inplace gc s2 r n2 n hpl2 hn hcond
    refine ⟨_, r, heq, ?_, ?_⟩
    · intro i hi
      dsimp only
      rw [store32_outside _ _ _ _ (by omega)]
      rw [memset_outside _ _ _ _ _ (by omega)]
    · intro i hni hi
      dsimp only
      rw [store32_outside _ _ _ _ (by omega)]
      rw [memset_inside _ _ _ _ _ (by omega) (by omega)]

theorem C4_grow_roundtrip_witness :
    ∃ s3 r2, reallocate true (allocate true initState 2).1 88 20 = some (s3, r2) ∧
      (∀ i, i < 2 → s3.mem (r2 + i) = (allocate true initState 2).1.mem (88 + i)) ∧
      (∀ i, 2 ≤ i → i < 20 → s3.mem (r2 + i) = 0) :=
  C4_grow_roundtrip true initState (allocate true initState 2).1
    (allocate true initState 2).1 88 2 20 rfl (by decide) (by decide) (by decide)
    (fun x h => rfl) rfl

theorem C10_shrink_updates_header_only_witness :
    ∃ s3, reallocate true (allocate true initState 8).1 88 3 = some (s3, 88) ∧
      s3.events = (allocate true initState 8).1.events ∧
      s3.next = (allocate true initState 8).1.next ∧
      (∀ x, x < 88 - HEADER_SIZE true + 4 ∨ 88 - HEADER_SIZE true + 8 ≤ x →
        s3.mem x = (allocate true initState 8).1.mem x) ∧
      sload32 s3 (88 - HEADER_SIZE true + 4) = 3 :=
  C10_shrink_updates_header_only true (allocate true initState 8).1 88 3
    (by decide) (by decide) (by decide)

/-- C1 (code-bug evidence): growing a registered object past its block moves
it to a fresh block (alloc, copy, zero-fill appear in the trace and the old
block is not freed), but the collector's register hook is invoked with the
stale old reference 88 — `__ref_register(ref)` runs before `ref = newRef` in
the source — and never with the new reference 120, contrary to the claim. -/
theorem C1_reallocate_registers_stale_ref :
    sload32 registeredState (88 - HEADER_SIZE true) = 9 ∧
    reallocate true registeredState 88 100 = some (staleRealloc.1, 120) ∧
    staleRealloc.1.events = registeredState.events ++
      [Event.alloc 128 104, Event.copy 120 88 4, Event.fill 124 0 96,
       Event.regHook 88] ∧
    List.count (Event.regHook 88) staleRealloc.1.events = 2 ∧
    Event.regHook 120 ∉ staleRealloc.1.events :=
  ⟨by decide, rfl, by decide, by decide, by decide⟩

/-- C2 (amended): for every call, `makeArray` allocates and registers the
array object, then allocates and registers the buffer object, then emits
exactly one `link(buffer, array)`: the collector observes exactly one
register call per object — the array's first, the buffer's second (the
buffer is allocated only after the array's register call) — followed by the
single link call; when `source` is nonzero a single backing-allocator copy
into the buffer follows the link call, and nothing else. -/
theorem C2_makeArray_register_link_order (s0 : State) (capacity cid alignLog2 source : Nat)
    (hheap : HEAP_BASE < s0.next) :
    ∃ s, makeArray true s0 capacity cid alignLog2 source = some (s, s0.next + 16) ∧
      s.events = s0.events ++ [Event.alloc 32 s0.next, Event.regHook (s0.next + 16),
        Event.alloc (adjust true ((capacity <<< (alignLog2 % 32)) % 4294967296)) (s0.next + 32),
        Event.regHook (s0.next + 48), Event.linkHook (s0.next + 48) (s0.next + 16)] ++
        (if source ≠ 0 then
          [Event.copy (s0.next + 48) source ((capacity <<< (alignLog2 % 32)) % 4294967296)]
        else []) := by
  have hmagic : HEADER_MAGIC % 4294967296 = HEADER_MAGIC := by norm_num [HEADER_MAGIC]
  have ha1 : adjust true ARRAY_OBJECT_SIZE = 32 := by decide
  have h16a : s0.next + 16 - HEADER_SIZE true = s0.next := by simp [HEADER_SIZE]
  have h16b : s0.next + 32 + 16 - HEADER_SIZE true = s0.next + 32 := by simp [HEADER_SIZE]
  have hload1 : sload32
      ({ mem := store32 (store32 (store32 (store32 s0.mem s0.next HEADER_MAGIC)
          (s0.next + 4) ARRAY_OBJECT_SIZE) (s0.next + 8) 0) (s0.next + 12) 0,
         next := s0.next + 32,
         events := s0.events ++ [Event.alloc 32 s0.next] } : State)
      (s0.next + 16 - HEADER_SIZE true) = HEADER_MAGIC := by
    rw [sload32, h16a]
    dsimp only
    rw [load32_store32_outside _ _ _ _ (by omega), load32_store32_outside _ _ _ _ (by omega),
      load32_store32_outside _ _ _ _ (by omega), load32_store32_same]
    exact hmagic
  have hR1 : register true
      ({ mem := store32 (store32 (store32 (store32 s0.mem s0.next HEADER_MAGIC)
          (s0.next + 4) ARRAY_OBJECT_SIZE) (s0.next + 8) 0) (s0.next + 12) 0,
         next := s0.next + 32,
         events := s0.events ++ [Event.alloc 32 s0.next] } : State)
      (s0.next + 16) cid =
      some ({ mem := store32 (store32 (store32 (store32 (store32 s0.mem s0.next HEADER_MAGIC)
                (s0.next + 4) ARRAY_OBJECT_SIZE) (s0.next + 8) 0) (s0.next + 12) 0)
                s0.next cid,
              next := s0.next + 32,
              events := (s0.events ++ [Event.alloc 32 s0.next]) ++
                [Event.regHook (s0.next + 16)] }, s0.next + 16) := by
    rw [register_eq_some true _ (s0.next + 16) cid (by omega) hload1]
    simp [h16a]
  have hload2 : sload32
      ({ mem := store32 (store32 (store32 (store32
            (store32 (store32 (store32 (store32 (store32 s0.mem s0.next HEADER_MAGIC)
              (s0.next + 4) ARRAY_OBJECT_SIZE) (s0.next + 8) 0) (s0.next + 12) 0)
              s0.next cid)
            (s0.next + 32) HEADER_MAGIC)
            (s0.next + 32 + 4) ((capacity <<< (alignLog2 % 32)) % 4294967296))
            (s0.next + 32 + 8) 0) (s0.next + 32 + 12) 0,
         next := s0.next + 32 + adjust true ((capacity <<< (alignLog2 % 32)) % 4294967296),
         events := ((s0.events ++ [Event.alloc 32 s0.next]) ++ [Event.regHook (s0.next + 16)]) ++
           [Event.alloc (adjust true ((capacity <<< (alignLog2 % 32)) % 4294967296)) (s0.next + 32)] } : State)
      (s0.next + 32 + 16 - HEADER_SIZE true) = HEADER_MAGIC := by
    rw [sload32, h16b]
    dsimp only
    rw [load32_store32_outside _ _ _ _ (by omega), load32_store32_outside _ _ _ _ (by omega),
      load32_store32_outside _ _ _ _ (by omega), load32_store32_same]
    exact hmagic
  have hR2 := register_eq_some true _ (s0.next + 32 + 16) ARRAYBUFFER_ID (by omega) hload2
  apply Exists.intro
  constructor
  · simp only [makeArray]
    rw [allocate_true_eq, ha1]
    dsimp only
    rw [hR1]
    dsimp only
    rw [allocate_true_eq]
    dsimp only
    rw [hR2]
  · by_cases hsrc : source ≠ 0 <;>
      simp [hsrc, sstore32, memCopy, h16b, List.append_assoc,
        show s0.next + 32 + 16 = s0.next + 48 from by omega]

theorem C2_makeArray_register_link_order_witness :
    ∃ s, makeArray true initState 4 7 2 8 = some (s, initState.next + 16) ∧
      s.events = initState.events ++ [Event.alloc 32 initState.next,
        Event.regHook (initState.next + 16),
        Event.alloc (adjust true ((4 <<< (2 % 32)) % 4294967296)) (initState.next + 32),
        Event.regHook (initState.next + 48),
        Event.linkHook (initState.next + 48) (initState.next + 16)] ++
        (if (8 : Nat) ≠ 0 then
          [Event.copy (initState.next + 48) 8 ((4 <<< (2 % 32)) % 4294967296)]
        else []) :=
  C2_makeArray_register_link_order initState 4 7 2 8 (by decide)

/-- C2 (counterexample): in the trace of
`makeArray(capacity 4, typeId 7, alignLog2 2, source null)` the buffer's
allocation happens after the array's register call, so "both objects are
allocated before either is registered" fails on the code. -/
theorem C2_makeArray_counterexample :
    makeArray true initState 4 7 2 0 = some (arrayScenario, 88) ∧
    arrayScenario.events = [Event.alloc 32 72, Event.regHook 88,
      Event.alloc 32 104, Event.regHook 120, Event.linkHook 120 88] ∧
    allocsPrecedeRegs arrayScenario.events = false :=
  ⟨rfl, by decide, by decide⟩

/-- C9: the scenario `makeArray(capacity 4, typeId 7, alignLog2 2, source
null)` from a fresh state yields array reference 88 whose `data` field holds
the buffer reference 120; the buffer's header payloadSize is 16, all 16
buffer payload bytes read zero, and the array's length field reads 4. -/
theorem C9_makeArray_scenario :
    makeArray true initState 4 7 2 0 = some (arrayScenario, 88) ∧
    sload32 arrayScenario 88 = 120 ∧
    sload32 arrayScenario (120 - HEADER_SIZE true + 4) = 16 ∧
    (∀ i, i < 16 → arrayScenario.mem (120 + i) = 0) ∧
    sload32 arrayScenario (88 + 12) = 4 :=
  ⟨rfl, by decide, by decide, by decide, by decide⟩

end AscRuntime

namespace AscGc

/-- C8: with no collector configured, `gc.register`, `gc.link` and `gc.mark`
fail fatally with a diagnostic naming the missing hook, while `gc.collect`
only emits a non-fatal warning; with a collector configured, each of the
four forwards to the corresponding collector hook. -/
theorem C8_gc_hook_dispatch (r p : Nat) :
    gcRegister false r = GcAction.fatal "missing implementation: gc.register" ∧
    gcLink false r p = GcAction.fatal "missing implementation: gc.link" ∧
    gcMark false r = GcAction.fatal "missing implementation: gc.mark" ∧
    gcCollect false = GcAction.warn "missing implementation: gc.collect" ∧
    gcRegister true r = GcAction.hook "__gc_register" [r] ∧
    gcLink true r p = GcAction.hook "__gc_link" [r, p] ∧
    gcMark true r = GcAction.hook "__gc_mark" [r] ∧
    gcCollect true = GcAction.hook "__gc_collect" [] :=
  ⟨rfl, rfl, rfl, rfl, rfl, rfl, rfl, rfl⟩

end AscGc
